import Mathlib

/-!
Verification of the cppmisc transport layer and thread utilities.

This file gives a shallow embedding, in Lean 4, of the chunked stream I/O of
`tcp_connection` (src/transport/tcp_connection.hpp), the datagram I/O of
`udp_connection`, the accept chain and lifecycle of `tcp_listener`, the
manual-reset event `synchronizer`, and the blocking FIFO `concurrent_queue`
(src/concurrent_queue.hpp), and proves or refutes the specified properties of
each.

Modelling conventions.
Bytes are `Nat`; byte buffers (`std::vector<char>`, `std::array<char, N>`) are
`List Nat`. A stream socket is modelled by the list of bytes the peer delivers
in order; once that list is exhausted, further receives fail with an I/O error
(this covers runs that terminate, which is what every claim below is about).
Error codes carry no payload of interest and become `Option Unit`
(`none` = success) or `Except`. Asynchronous completion handlers are modelled
by direct recursion: each handler invocation becomes one recursive call, so
the value computed here is exactly the sequence of callback arguments the
C++ chain produces.
-/

/-- Scratch-buffer capacity shared by both connection classes:
`static const size_t BUFFER_LENGTH = 1024` in tcp_connection.hpp and
udp_connection.hpp. -/
def BUFFER_LENGTH : Nat := 1024

/-- Model of `std::memcpy(&buffer[off], src, len)` where `src` holds `data`:
overwrite `buf` at offset `off` with `data`, leaving everything else
unchanged. -/
def writeAt (buf : List Nat) (off : Nat) (data : List Nat) : List Nat :=
  buf.take off ++ data ++ buf.drop (off + data.length)

/-- Outcome of a chunked stream read. The completion callback of the private
overload receives only an error code, but the buffer it filled is the member
`incoming_data_`, which the public overload then hands to the user callback in
whatever state it is in; both constructors therefore record the buffer. -/
inductive ReadOutcome where
  | ok (buf : List Nat)
  | err (buf : List Nat)
deriving DecidableEq, Repr

/-- Chunked read loop, `tcp_connection::read(bytes, buffer, callback, read_bytes)`
(tcp_connection.hpp lines 133-161). One iteration is one `asio::async_read`
into the scratch array `read_buffer_` bounded by
`bytes < BUFFER_LENGTH ? bytes : BUFFER_LENGTH`; on success the transfer
completes the whole bounded buffer, so `len = min bytes BUFFER_LENGTH` bytes
arrive, are copied by `memcpy` into `buffer` at offset `read_bytes`, and if
`bytes - len > 0` the loop re-issues itself, else the callback fires with
success. If the socket cannot deliver the chunk (peer closed / I/O error) the
callback fires with the error. The second component of the result is the list
of chunk lengths received, innermost last. -/
def tcp_connection.read_go (bytes : Nat) (buffer : List Nat) (read_bytes : Nat)
    (net : List Nat) : ReadOutcome × List Nat :=
  if _h : min bytes BUFFER_LENGTH ≤ net.length then
    if h2 : 0 < bytes - min bytes BUFFER_LENGTH then
      let r := tcp_connection.read_go (bytes - min bytes BUFFER_LENGTH)
        (writeAt buffer read_bytes (net.take (min bytes BUFFER_LENGTH)))
        (read_bytes + min bytes BUFFER_LENGTH)
        (net.drop (min bytes BUFFER_LENGTH))
      (r.1, min bytes BUFFER_LENGTH :: r.2)
    else
      (ReadOutcome.ok (writeAt buffer read_bytes (net.take (min bytes BUFFER_LENGTH))),
        [min bytes BUFFER_LENGTH])
  else
    (ReadOutcome.err buffer, [])
termination_by bytes
decreasing_by
  simp only [BUFFER_LENGTH] at h2 ⊢
  omega

/-- Sequence of chunk lengths the loop requests for a total of `bytes` bytes:
`min remaining BUFFER_LENGTH` per chunk, repeated until remaining reaches
zero (a request of 0 bytes still issues one empty chunk, as the code does). -/
def chunkSizes (bytes : Nat) : List Nat :=
  if h : 0 < bytes - min bytes BUFFER_LENGTH then
    min bytes BUFFER_LENGTH :: chunkSizes (bytes - min bytes BUFFER_LENGTH)
  else
    [min bytes BUFFER_LENGTH]
termination_by bytes
decreasing_by
  simp only [BUFFER_LENGTH] at h ⊢
  omega

/-- Public overload `tcp_connection::read(bytes, callback)` (lines 71-79):
`incoming_data_.resize(bytes)` produces a zero-filled accumulation buffer of
length `bytes`; the inner chunked read fills it; the user callback receives
`(error, std::move(incoming_data_))` in both the success and the error case.
Result: `((error?, buffer passed to the callback), chunk trace)`. -/
def tcp_connection.read (bytes : Nat) (net : List Nat) :
    (Option Unit × List Nat) × List Nat :=
  match tcp_connection.read_go bytes (List.replicate bytes 0) 0 net with
  | (ReadOutcome.ok buf, tr) => ((none, buf), tr)
  | (ReadOutcome.err buf, tr) => ((some (), buf), tr)

/-- Chunked write loop `tcp_connection::write(callback, sent)` (lines 163-180).
`increment = min (size - sent) BUFFER_LENGTH` bytes of the unsent suffix of
`outgoing_data_` are copied into the scratch array `write_buffer_` and sent
with `async_write` (which on success transfers the whole `increment`); when
`sent + bytes_transferred == outgoing_data_.size()` the callback fires, else
the loop re-issues with the advanced counter. The result is the list of chunks
physically sent, assuming every send succeeds (the success path the claims
quantify over). The `increment = 0` guard is unreachable for the calls the
class makes (they keep `sent ≤ data.length`) and only makes the recursion
total. -/
def tcp_connection.write_go (data : List Nat) (sent : Nat) : List (List Nat) :=
  if sent + min (data.length - sent) BUFFER_LENGTH = data.length then
    [(data.drop sent).take (min (data.length - sent) BUFFER_LENGTH)]
  else if h : min (data.length - sent) BUFFER_LENGTH = 0 then
    [(data.drop sent).take (min (data.length - sent) BUFFER_LENGTH)]
  else
    (data.drop sent).take (min (data.length - sent) BUFFER_LENGTH)
      :: tcp_connection.write_go data (sent + min (data.length - sent) BUFFER_LENGTH)
termination_by data.length - sent
decreasing_by
  simp only [BUFFER_LENGTH] at h ⊢
  omega

/-- Public `tcp_connection::write(data, callback)` (lines 107-117): moves the
argument into `outgoing_data_` (decoupling the physical sends from the buffer
of the caller) and starts the chunk loop at `sent = 0`. The `__DUMP_BUFFER`
call is diagnostic output only and does not affect the data path. -/
def tcp_connection.write (data : List Nat) : List (List Nat) :=
  tcp_connection.write_go data 0

/-- Chunked write loop of `udp_connection` (udp_connection.hpp lines 131-148),
translated separately from its own source text; it is compared against the
tcp loop in the refinement claim. -/
def udp_connection.write_go (data : List Nat) (sent : Nat) : List (List Nat) :=
  if sent + min (data.length - sent) BUFFER_LENGTH = data.length then
    [(data.drop sent).take (min (data.length - sent) BUFFER_LENGTH)]
  else if h : min (data.length - sent) BUFFER_LENGTH = 0 then
    [(data.drop sent).take (min (data.length - sent) BUFFER_LENGTH)]
  else
    (data.drop sent).take (min (data.length - sent) BUFFER_LENGTH)
      :: udp_connection.write_go data (sent + min (data.length - sent) BUFFER_LENGTH)
termination_by data.length - sent
decreasing_by
  simp only [BUFFER_LENGTH] at h ⊢
  omega

/-- Public `udp_connection::write(data, callback)` (lines 102-109). -/
def udp_connection.write (data : List Nat) : List (List Nat) :=
  udp_connection.write_go data 0

/-- One invocation of `udp_connection::read` observes one of three events:
the zero-length readiness probe (`async_receive(null_buffers)`) fails; the
probe succeeds reporting `socket_.available() = avail` and the subsequent
`async_receive_from` fails; or the probe succeeds and the receive delivers a
datagram `payload` from `sender`. -/
inductive UdpEvent where
  | probeError
  | recvError (avail : Nat)
  | datagram (avail : Nat) (sender : Nat) (payload : List Nat)
deriving DecidableEq, Repr

/-- Model of `async_receive_from(buffer(buf), ...)` on a datagram socket: a
single datagram `dgram` is read, truncated to the capacity of `buf`; returns
`(bytes_transferred, buffer contents afterwards)`. -/
def recv_from (buf : List Nat) (dgram : List Nat) : Nat × List Nat :=
  (min buf.length dgram.length,
    dgram.take (min buf.length dgram.length) ++ buf.drop (min buf.length dgram.length))

/-- Model of `udp_connection::read(callback)` (udp_connection.hpp lines 75-94).
Probe failure: `callback(error, endpoint_type(), buffer_type())` with the
default endpoint (modelled `none`) and the empty buffer. Probe success:
`udp_read_cb_data(socket_.available())` allocates a zero-filled buffer of the
probed size; on receive failure that buffer is passed to the callback without
being resized; on success the buffer is resized down to `bytes_transferred`
and passed together with the sender endpoint. -/
def udp_connection.read : UdpEvent → Option Unit × Option Nat × List Nat
  | UdpEvent.probeError => (some (), none, [])
  | UdpEvent.recvError avail => (some (), none, List.replicate avail 0)
  | UdpEvent.datagram avail sender payload =>
      let r := recv_from (List.replicate avail 0) payload
      (none, some sender, r.2.take r.1)

/-- Accept chain `tcp_listener::async_accept` (tcp_listener.hpp lines 117-128)
as a trace function. The input is the list of outcomes the acceptor produces,
in order (`some c` = a new connection `c` accepted, `none` = an accept error).
The first output component is the list of handler invocations
(`some c` = `connection_handler_(ok, connection)`, `none` =
`connection_handler_(error, nullptr)`); the second is whether an accept is
still armed after the trace (on success the chain re-arms itself immediately
after invoking the handler, on error it does not). -/
def tcp_listener.accept_chain : List (Option Nat) → List (Option Nat) × Bool
  | [] => ([], true)
  | none :: _ => ([none], false)
  | some c :: rest =>
      let r := tcp_listener.accept_chain rest
      (some c :: r.1, r.2)

/-- Join state of one `std::thread` object in the `threads_` vector. -/
structure worker_thread where
  joinable : Bool
deriving DecidableEq, Repr

/-- Model of `std::thread::join()`: joining a joinable thread blocks until it
exits and leaves the object non-joinable; calling it on a thread that is not
joinable (default-constructed or already joined) throws `std::system_error`. -/
def thread_join (t : worker_thread) : Except Unit worker_thread :=
  if t.joinable then Except.ok { joinable := false } else Except.error ()

/-- Observable state of a `tcp_listener` (tcp_listener.hpp): acceptor open
flag, io_service running flag, the worker-thread vector, and whether
`connection_handler_` holds a handler. -/
structure tcp_listener_state where
  acceptor_open : Bool
  service_running : Bool
  threads : List worker_thread
  handler_set : Bool
deriving DecidableEq, Repr

/-- The loop `for (auto& thread : threads_) thread.join();` in
`tcp_listener::stop`. -/
def join_all : List worker_thread → Except Unit (List worker_thread)
  | [] => Except.ok []
  | t :: ts => do
      let t2 ← thread_join t
      let ts2 ← join_all ts
      Except.ok (t2 :: ts2)

/-- A freshly constructed listener (tcp_listener.hpp lines 60-67): the member
initializer `threads_(THREADS)` with `THREADS = 2` fills the vector with two
default-constructed, hence non-joinable, `std::thread` objects. -/
def tcp_listener.init : tcp_listener_state :=
  { acceptor_open := false, service_running := false,
    threads := List.replicate 2 { joinable := false }, handler_set := false }

/-- Model of `tcp_listener::start(handler)` (lines 78-104): stores the handler,
resets and runs the io_service on every pooled thread (each slot of `threads_`
is assigned a running, joinable thread), opens, binds and listens on the
acceptor, and arms the first accept. -/
def tcp_listener.start (s : tcp_listener_state) : tcp_listener_state :=
  { acceptor_open := true, service_running := true,
    threads := s.threads.map (fun _ => { joinable := true }), handler_set := true }

/-- Model of `tcp_listener::stop()` (lines 106-115), in source order:
`acceptor_.close()`, `ioservice_.stop()`, `thread.join()` for every element of
`threads_` (this throws when a thread is not joinable), then
`connection_handler_ = Handler_Type()`. -/
def tcp_listener.stop (s : tcp_listener_state) : Except Unit tcp_listener_state := do
  let s1 := { s with acceptor_open := false }
  let s2 := { s1 with service_running := false }
  let ts ← join_all s2.threads
  Except.ok { s2 with threads := ts, handler_set := false }

/-- Model of `synchronizer::set(scoped_lock&)` (synchronizer.hpp lines 91-100):
if the supplied lock does not own the mutex it throws
`std::runtime_error("Invalid lock")` before touching anything, else it sets
`_condition_met` and notifies. Result: `(thrown error?, flag afterwards)`.
The thrown `runtime_error` is a distinct exception type, not a
`boost::system::error_code`; it is modelled by the `String` channel, which no
transport operation in this file uses. -/
def synchronizer.set (owns : Bool) (condition_met : Bool) : Option String × Bool :=
  if owns = false then (some "Invalid lock", condition_met) else (none, true)

/-- Model of `synchronizer::reset(scoped_lock&)` (lines 118-126). -/
def synchronizer.reset (owns : Bool) (condition_met : Bool) : Option String × Bool :=
  if owns = false then (some "Invalid lock", condition_met) else (none, false)

/-- Model of `synchronizer::wait(scoped_lock&)` (lines 176-187): throws when the
lock is not owned; otherwise loops on the condition variable until the flag is
true (the loop itself never modifies the flag, which only a concurrent `set`
changes, so the flag component is returned unchanged). -/
def synchronizer.wait (owns : Bool) (condition_met : Bool) : Option String × Bool :=
  if owns = false then (some "Invalid lock", condition_met) else (none, condition_met)

/-- Model of `synchronizer::is_condition_met(scoped_lock&)` (lines 65-73):
throws when the lock is not owned, else returns the flag; never modifies it. -/
def synchronizer.is_condition_met (owns : Bool) (condition_met : Bool) : Except String Bool :=
  if owns = false then Except.error "Invalid lock" else Except.ok condition_met

/-- State of a `concurrent_queue<value_type>` with `value_type = Nat`
(concurrent_queue.hpp): the underlying `std::list` and the separate
`atomic_counter _size`. -/
structure concurrent_queue where
  _container : List Nat
  _size : Nat
deriving DecidableEq, Repr

/-- Private `concurrent_queue::do_push` (lines 190-195): `++_size`,
`push_back`, `notify_one`. -/
def concurrent_queue.do_push (q : concurrent_queue) (x : Nat) : concurrent_queue :=
  { _container := q._container ++ [x], _size := q._size + 1 }

/-- Private `concurrent_queue::do_pop` (lines 197-202): `front`, `pop_front`,
`--_size`. Every caller checks emptiness first; the `[]` branch is the
unreachable total-function filler. -/
def concurrent_queue.do_pop (q : concurrent_queue) : Nat × concurrent_queue :=
  match q._container with
  | [] => (0, q)
  | x :: xs => (x, { _container := xs, _size := q._size - 1 })

/-- Public `concurrent_queue::push` (lines 81-85): take the mutex, `do_push`. -/
def concurrent_queue.push (q : concurrent_queue) (x : Nat) : concurrent_queue :=
  q.do_push x

/-- Public `concurrent_queue::empty` (lines 63-66): returns `_size == 0`, the
counter, not the container. -/
def concurrent_queue.empty (q : concurrent_queue) : Bool :=
  q._size == 0

/-- Public `concurrent_queue::size` (lines 71-74): returns `_size`. -/
def concurrent_queue.size (q : concurrent_queue) : Nat :=
  q._size

/-- Public `concurrent_queue::clear` (lines 181-186): swaps `_container` with
an empty temporary under the mutex. Note that `_size` is left untouched by the
source. -/
def concurrent_queue.clear (q : concurrent_queue) : concurrent_queue :=
  { q with _container := [] }

/-- Public `concurrent_queue::pop(value_type&, size_t timeout_ms)` (lines
157-176). `arrivals` lists the elements other threads push before the deadline
while this call waits (pushes that can only matter when the container starts
empty, because otherwise no wait happens); if the container is empty and
nothing arrives, `timed_wait` expires and the function returns `false` leaving
the out-parameter `result` untouched; otherwise the front element is popped.
Result: `(return value, out-parameter value, queue afterwards)`. -/
def concurrent_queue.pop_timed (q : concurrent_queue) (arrivals : List Nat)
    (result : Nat) : Bool × Nat × concurrent_queue :=
  if q._container = [] then
    let q2 := arrivals.foldl concurrent_queue.do_push q
    if q2._container = [] then
      (false, result, q2)
    else
      let r := q2.do_pop
      (true, r.1, r.2)
  else
    let r := q.do_pop
    (true, r.1, r.2)

/-- Public `concurrent_queue::pop(size_t timeout_ms)` (lines 113-123):
default-constructs `_result` (0 for the `Nat` instantiation), delegates to the
two-argument overload, throws `timeout_exception` when it returned `false`,
else returns the popped element. -/
def concurrent_queue.pop_throw (q : concurrent_queue) (arrivals : List Nat) :
    Except Unit (Nat × concurrent_queue) :=
  let r := concurrent_queue.pop_timed q arrivals 0
  if r.1 = false then Except.error () else Except.ok (r.2.1, r.2.2)

/-! Claim theorems for the listener, the datagram reader, the synchronizer and
the queue counters. -/

/-- Claim C4. Accept chain of `tcp_listener`: as long as every accept
completes successfully the handler is invoked once per accepted connection, in
order, and an accept is re-armed after each (so exactly one accept stays
outstanding); the first accept error invokes the handler exactly once with the
error and no connection, everything the acceptor might produce afterwards is
ignored, and no further accept is armed. -/
theorem claim_c4_accept_chain (conns : List Nat) (post : List (Option Nat)) :
    tcp_listener.accept_chain (conns.map some) = (conns.map some, true) ∧
    tcp_listener.accept_chain (conns.map some ++ none :: post)
      = (conns.map some ++ [none], false) := by
  induction conns with
  | nil => simp [tcp_listener.accept_chain]
  | cons c cs ih =>
      refine ⟨?_, ?_⟩ <;>
        simp [tcp_listener.accept_chain, ih.1, ih.2]

/-- Claim C5, refuting theorem. The first `stop()` on a started listener
succeeds and joins both workers, but a second `stop()` on the resulting state
throws (modelled `Except.error`), because `std::thread::join` is called on
threads that are no longer joinable; a `stop()` on a freshly constructed
listener throws for the same reason. The destructor runs `stop()`
unconditionally, so destroying a listener after an explicit `stop()` lets that
exception escape a destructor and aborts. -/
theorem claim_c5_double_stop_throws :
    tcp_listener.stop (tcp_listener.start tcp_listener.init)
      = Except.ok { acceptor_open := false, service_running := false,
                    threads := List.replicate 2 { joinable := false },
                    handler_set := false } ∧
    tcp_listener.stop { acceptor_open := false, service_running := false,
                        threads := List.replicate 2 { joinable := false },
                        handler_set := false }
      = Except.error () ∧
    tcp_listener.stop tcp_listener.init = Except.error () :=
  ⟨rfl, rfl, rfl⟩

/-- Claim C6, counterexample. After a successful size probe reporting 3 bytes,
a failing receive makes the callback fire with the error, the default sender
address, and the zero-filled probe-sized buffer `[0, 0, 0]` — not the empty
buffer the claim promises. -/
theorem claim_c6_counterexample :
    udp_connection.read (UdpEvent.recvError 3) = (some (), none, [0, 0, 0]) ∧
    ([0, 0, 0] : List Nat) ≠ [] :=
  ⟨rfl, by decide⟩

/-- Claim C6, amended. Each `udp_connection::read` delivers exactly one full
datagram per callback: the probed size fixes the receive buffer, and a
delivered datagram of exactly that size arrives intact with its sender. On a
probe failure the callback fires once with the error, the default endpoint and
the empty buffer; on a receive failure it fires once with the error, the
default endpoint and the unresized zero-filled buffer of the probed size
(empty only when the probe reported 0). -/
theorem claim_c6_udp_read_spec (avail : Nat) (sender : Nat) (payload : List Nat) :
    udp_connection.read (UdpEvent.datagram payload.length sender payload)
      = (none, some sender, payload) ∧
    udp_connection.read UdpEvent.probeError = (some (), none, []) ∧
    udp_connection.read (UdpEvent.recvError avail)
      = (some (), none, List.replicate avail 0) := by
  refine ⟨?_, rfl, rfl⟩
  simp [udp_connection.read, recv_from]

/-- Claim C8. Every lock-taking overload of the `synchronizer` operations
throws the precondition-violation error `"Invalid lock"` (a
`std::runtime_error`, distinct from the transport `error_code` channel) when
the supplied scoped lock does not own the mutex, leaving the condition flag
unchanged; when the lock is owned, `set` raises the flag, `reset` lowers it,
`wait` returns with the flag untouched, and `is_condition_met` reports it. -/
theorem claim_c8_synchronizer_lock_guard (c : Bool) :
    synchronizer.set false c = (some "Invalid lock", c) ∧
    synchronizer.reset false c = (some "Invalid lock", c) ∧
    synchronizer.wait false c = (some "Invalid lock", c) ∧
    synchronizer.is_condition_met false c = Except.error "Invalid lock" ∧
    synchronizer.set true c = (none, true) ∧
    synchronizer.reset true c = (none, false) ∧
    synchronizer.wait true c = (none, c) ∧
    synchronizer.is_condition_met true c = Except.ok c := by
  cases c <;> exact ⟨rfl, rfl, rfl, rfl, rfl, rfl, rfl, rfl⟩

/-- Claim C10, refuting theorem. Push one element into an empty queue, then
`clear()`: the underlying container is empty, yet `size()` still reports 1 and
`empty()` reports false, because `clear` swaps the container without resetting
the separate `_size` counter — contradicting the documented meaning of
`size`, `empty` and `clear`. -/
theorem claim_c10_clear_leaves_stale_size :
    (concurrent_queue.clear
        (concurrent_queue.push { _container := [], _size := 0 } 7))._container = [] ∧
    concurrent_queue.size
        (concurrent_queue.clear
          (concurrent_queue.push { _container := [], _size := 0 } 7)) = 1 ∧
    concurrent_queue.empty
        (concurrent_queue.clear
          (concurrent_queue.push { _container := [], _size := 0 } 7)) = false :=
  ⟨rfl, rfl, rfl⟩

/-! Lemmas and claim theorems for the chunked write loops. -/

/-- The write loop never produces an empty chunk list: even for an empty
payload one (empty) physical send is issued. -/
theorem tcp_write_go_ne_nil (data : List Nat) (sent : Nat) :
    tcp_connection.write_go data sent ≠ [] := by
  rw [tcp_connection.write_go]
  split
  · simp
  · split <;> simp

/-- Flattening the chunks sent from offset `sent` reproduces the unsent suffix
of the payload. -/
theorem tcp_write_go_flatten (data : List Nat) :
    ∀ sent, sent ≤ data.length →
      (tcp_connection.write_go data sent).flatten = data.drop sent := by
  have H : ∀ fuel sent, data.length - sent = fuel → sent ≤ data.length →
      (tcp_connection.write_go data sent).flatten = data.drop sent := by
    intro fuel
    induction fuel using Nat.strong_induction_on with
    | _ fuel ih =>
      intro sent hf hs
      rw [tcp_connection.write_go]
      by_cases h1 : sent + min (data.length - sent) BUFFER_LENGTH = data.length
      · rw [if_pos h1]
        have hmin : min (data.length - sent) BUFFER_LENGTH = data.length - sent := by
          omega
        rw [hmin]
        have hlen : data.length - sent = (data.drop sent).length := by simp
        rw [hlen, List.take_length]
        simp
      · rw [if_neg h1]
        have h2 : ¬ (min (data.length - sent) BUFFER_LENGTH = 0) := by
          simp only [BUFFER_LENGTH] at *
          omega
        rw [dif_neg h2]
        have hdec : data.length - (sent + min (data.length - sent) BUFFER_LENGTH) < fuel := by
          simp only [BUFFER_LENGTH] at *
          omega
        have hs2 : sent + min (data.length - sent) BUFFER_LENGTH ≤ data.length := by
          omega
        have hrec := ih _ hdec (sent + min (data.length - sent) BUFFER_LENGTH) rfl hs2
        simp only [List.flatten_cons, hrec]
        rw [← List.drop_drop, List.take_append_drop]
  intro sent hs
  exact H (data.length - sent) sent rfl hs

/-- Every chunk the write loop sends fits in the scratch buffer. -/
theorem tcp_write_go_bound (data : List Nat) :
    ∀ sent, ((tcp_connection.write_go data sent).all
      fun c => decide (c.length ≤ BUFFER_LENGTH)) = true := by
  have H : ∀ fuel sent, data.length - sent = fuel →
      ((tcp_connection.write_go data sent).all
        fun c => decide (c.length ≤ BUFFER_LENGTH)) = true := by
    intro fuel
    induction fuel using Nat.strong_induction_on with
    | _ fuel ih =>
      intro sent hf
      rw [tcp_connection.write_go]
      by_cases h1 : sent + min (data.length - sent) BUFFER_LENGTH = data.length
      · rw [if_pos h1]
        simp
      · rw [if_neg h1]
        by_cases h2 : min (data.length - sent) BUFFER_LENGTH = 0
        · rw [dif_pos h2]
          simp
        · rw [dif_neg h2]
          have hdec : data.length - (sent + min (data.length - sent) BUFFER_LENGTH) < fuel := by
            simp only [BUFFER_LENGTH] at *
            omega
          have hrec := ih _ hdec (sent + min (data.length - sent) BUFFER_LENGTH) rfl
          simp [hrec]
  intro sent
  exact H (data.length - sent) sent rfl

/-- The udp and tcp chunked write loops compute the same chunk sequence on
every input. -/
theorem udp_tcp_write_go_eq (data : List Nat) :
    ∀ sent, udp_connection.write_go data sent = tcp_connection.write_go data sent := by
  have H : ∀ fuel sent, data.length - sent = fuel →
      udp_connection.write_go data sent = tcp_connection.write_go data sent := by
    intro fuel
    induction fuel using Nat.strong_induction_on with
    | _ fuel ih =>
      intro sent hf
      rw [udp_connection.write_go, tcp_connection.write_go]
      by_cases h1 : sent + min (data.length - sent) BUFFER_LENGTH = data.length
      · rw [if_pos h1, if_pos h1]
      · rw [if_neg h1, if_neg h1]
        by_cases h2 : min (data.length - sent) BUFFER_LENGTH = 0
        · rw [dif_pos h2, dif_pos h2]
        · rw [dif_neg h2, dif_neg h2]
          have hdec : data.length - (sent + min (data.length - sent) BUFFER_LENGTH) < fuel := by
            simp only [BUFFER_LENGTH] at *
            omega
          rw [ih _ hdec (sent + min (data.length - sent) BUFFER_LENGTH) rfl]
  intro sent
  exact H (data.length - sent) sent rfl

/-- Claim C3. For every buffer (the empty buffer included), the stream write
sends the whole buffer: the chunk copied into the write scratch before each
physical send never exceeds `BUFFER_LENGTH` bytes, and the concatenation of
all chunks physically sent on the all-sends-succeed path equals the payload
exactly. The staging copy through `write_buffer_` and the by-value transfer
into `outgoing_data_` are what decouple the physical sends from the buffer of
the caller. -/
theorem claim_c3_tcp_write_all (data : List Nat) :
    (tcp_connection.write data).flatten = data ∧
    ((tcp_connection.write data).all
      fun c => decide (c.length ≤ BUFFER_LENGTH)) = true := by
  constructor
  · have h := tcp_write_go_flatten data 0 (by omega)
    simpa [tcp_connection.write] using h
  · exact tcp_write_go_bound data 0

/-- Claim C7. The private chunked write of `udp_connection` computes exactly
the same chunk sequence as that of `tcp_connection` on every payload and
offset (the two member templates are textually the same algorithm), and the
public writes therefore agree as well; consequently a payload longer than
`BUFFER_LENGTH` is split into at least two physical datagram sends instead of
one datagram. -/
theorem claim_c7_udp_write_same_as_tcp (data : List Nat) (sent : Nat) :
    udp_connection.write_go data sent = tcp_connection.write_go data sent ∧
    udp_connection.write data = tcp_connection.write data ∧
    (BUFFER_LENGTH < data.length → 2 ≤ (udp_connection.write data).length) := by
  refine ⟨udp_tcp_write_go_eq data sent, udp_tcp_write_go_eq data 0, ?_⟩
  intro hlen
  show 2 ≤ (udp_connection.write_go data 0).length
  rw [udp_tcp_write_go_eq data 0, tcp_connection.write_go]
  have h1 : ¬ (0 + min (data.length - 0) BUFFER_LENGTH = data.length) := by
    simp only [BUFFER_LENGTH] at *
    omega
  have h2 : ¬ (min (data.length - 0) BUFFER_LENGTH = 0) := by
    simp only [BUFFER_LENGTH] at *
    omega
  rw [if_neg h1, dif_neg h2]
  have hne := tcp_write_go_ne_nil data (0 + min (data.length - 0) BUFFER_LENGTH)
  have hpos : 0 < (tcp_connection.write_go data
      (0 + min (data.length - 0) BUFFER_LENGTH)).length :=
    List.length_pos.mpr hne
  simp only [List.length_cons]
  omega

/-- Claim C7, witness. A 1025-byte payload is split by the udp write into at
least two physical datagram sends. -/
theorem claim_c7_udp_write_same_as_tcp_witness :
    2 ≤ (udp_connection.write (List.replicate 1025 0)).length := by
  refine (claim_c7_udp_write_same_as_tcp (List.replicate 1025 0) 0).2.2 ?_
  simp only [List.length_replicate, BUFFER_LENGTH]
  omega

/-! Lemmas and claim theorems for the chunked read loop. -/

/-- Overwriting inside the bounds keeps the buffer length. -/
theorem writeAt_length (buf data : List Nat) (off : Nat)
    (h : off + data.length ≤ buf.length) :
    (writeAt buf off data).length = buf.length := by
  simp [writeAt]
  omega

/-- The prefix of the buffer up to the end of an in-bounds overwrite is the
untouched head followed by the written data. -/
theorem writeAt_take (buf data : List Nat) (off : Nat)
    (h : off + data.length ≤ buf.length) :
    (writeAt buf off data).take (off + data.length) = buf.take off ++ data := by
  have hlen : (buf.take off ++ data).length = off + data.length := by
    simp
    omega
  rw [writeAt, List.take_left' hlen]

/-- Dropping past the end of an in-bounds overwrite sees the untouched tail. -/
theorem writeAt_drop (buf data : List Nat) (off m : Nat)
    (h : off + data.length ≤ buf.length) (hm : off + data.length ≤ m) :
    (writeAt buf off data).drop m = buf.drop m := by
  have hlen : (buf.take off ++ data).length = off + data.length := by
    simp
    omega
  rw [writeAt, List.drop_append_eq_append_drop, List.drop_append_eq_append_drop]
  rw [List.drop_eq_nil_of_le (show (buf.take off).length ≤ m by simp; omega)]
  rw [List.drop_eq_nil_of_le (show data.length ≤ m - (buf.take off).length by simp; omega)]
  rw [List.nil_append, List.nil_append, List.drop_drop]
  congr 1
  simp
  omega

/-- Success case of the chunked read loop: when the socket delivers at least
`bytes` bytes, the loop terminates with success, the accumulation buffer holds
its untouched prefix followed by exactly the first `bytes` delivered bytes,
and the chunk trace is the `min remaining BUFFER_LENGTH` sequence. -/
theorem tcp_read_go_success :
    ∀ bytes buffer read_bytes (net : List Nat), read_bytes + bytes = buffer.length →
      bytes ≤ net.length →
      tcp_connection.read_go bytes buffer read_bytes net
        = (ReadOutcome.ok (buffer.take read_bytes ++ net.take bytes), chunkSizes bytes) := by
  intro bytes
  induction bytes using Nat.strong_induction_on with
  | _ bytes ih =>
    intro buffer read_bytes net hb hn
    rw [tcp_connection.read_go]
    have hguard : min bytes BUFFER_LENGTH ≤ net.length := by omega
    rw [dif_pos hguard]
    have htk : (net.take (min bytes BUFFER_LENGTH)).length = min bytes BUFFER_LENGTH := by
      simp
      omega
    by_cases h2 : 0 < bytes - min bytes BUFFER_LENGTH
    · rw [dif_pos h2]
      have hklt : min bytes BUFFER_LENGTH < bytes := by omega
      have hkpos : 0 < min bytes BUFFER_LENGTH := by
        simp only [BUFFER_LENGTH] at *
        omega
      have hwlen : (writeAt buffer read_bytes (net.take (min bytes BUFFER_LENGTH))).length
          = buffer.length := by
        rw [writeAt_length]
        rw [htk]
        omega
      have hrec := ih (bytes - min bytes BUFFER_LENGTH) (by omega)
        (writeAt buffer read_bytes (net.take (min bytes BUFFER_LENGTH)))
        (read_bytes + min bytes BUFFER_LENGTH)
        (net.drop (min bytes BUFFER_LENGTH))
        (by rw [hwlen]; omega)
        (by simp; omega)
      simp only [hrec]
      have hwtake : (writeAt buffer read_bytes
            (net.take (min bytes BUFFER_LENGTH))).take
              (read_bytes + min bytes BUFFER_LENGTH)
          = buffer.take read_bytes ++ net.take (min bytes BUFFER_LENGTH) := by
        have hv := writeAt_take buffer (net.take (min bytes BUFFER_LENGTH)) read_bytes
          (by rw [htk]; omega)
        rw [htk] at hv
        exact hv
      conv_rhs => rw [chunkSizes]
      rw [dif_pos h2]
      rw [hwtake, List.append_assoc, ← List.take_add]
      have hsum : min bytes BUFFER_LENGTH + (bytes - min bytes BUFFER_LENGTH) = bytes := by
        omega
      rw [hsum]
    · rw [dif_neg h2]
      have hkb : min bytes BUFFER_LENGTH = bytes := by omega
      rw [chunkSizes, dif_neg h2, hkb, writeAt]
      have htk2 : (net.take bytes).length = bytes := by
        simp
        omega
      rw [htk2, List.drop_eq_nil_of_le (by omega), List.append_nil]

/-- Failure case of the chunked read loop: when the socket delivers fewer than
`bytes` bytes before failing, the loop terminates with the error callback, and
the accumulation buffer passed along still contains every completed chunk —
the first `BUFFER_LENGTH * (delivered / BUFFER_LENGTH)` delivered bytes — with
the rest of the buffer untouched. -/
theorem tcp_read_go_failure :
    ∀ bytes buffer read_bytes (net : List Nat), read_bytes + bytes = buffer.length →
      net.length < bytes →
      (tcp_connection.read_go bytes buffer read_bytes net).1
        = ReadOutcome.err (buffer.take read_bytes
            ++ net.take (BUFFER_LENGTH * (net.length / BUFFER_LENGTH))
            ++ buffer.drop (read_bytes + BUFFER_LENGTH * (net.length / BUFFER_LENGTH))) := by
  intro bytes
  induction bytes using Nat.strong_induction_on with
  | _ bytes ih =>
    intro buffer read_bytes net hb hn
    rw [tcp_connection.read_go]
    by_cases hguard : min bytes BUFFER_LENGTH ≤ net.length
    · rw [dif_pos hguard]
      have hkB : min bytes BUFFER_LENGTH = BUFFER_LENGTH := by
        simp only [BUFFER_LENGTH] at *
        omega
      have h2 : 0 < bytes - min bytes BUFFER_LENGTH := by
        simp only [BUFFER_LENGTH] at *
        omega
      rw [dif_pos h2]
      rw [hkB] at hguard ⊢
      have hBbytes : BUFFER_LENGTH < bytes := by
        simp only [BUFFER_LENGTH] at *
        omega
      have htk : (net.take BUFFER_LENGTH).length = BUFFER_LENGTH := by
        simp
        omega
      have hwlen : (writeAt buffer read_bytes (net.take BUFFER_LENGTH)).length
          = buffer.length := by
        rw [writeAt_length]
        rw [htk]
        omega
      have hrec := ih (bytes - BUFFER_LENGTH)
        (by simp only [BUFFER_LENGTH] at *; omega)
        (writeAt buffer read_bytes (net.take BUFFER_LENGTH))
        (read_bytes + BUFFER_LENGTH)
        (net.drop BUFFER_LENGTH)
        (by rw [hwlen]; omega)
        (by rw [List.length_drop]; omega)
      simp only [hrec]
      have hwtake : (writeAt buffer read_bytes (net.take BUFFER_LENGTH)).take
            (read_bytes + BUFFER_LENGTH)
          = buffer.take read_bytes ++ net.take BUFFER_LENGTH := by
        have hv := writeAt_take buffer (net.take BUFFER_LENGTH) read_bytes
          (by rw [htk]; omega)
        rw [htk] at hv
        exact hv
      have hlendrop : (net.drop BUFFER_LENGTH).length = net.length - BUFFER_LENGTH := by
        simp
      rw [hwtake, hlendrop]
      rw [writeAt_drop buffer (net.take BUFFER_LENGTH) read_bytes
        (read_bytes + BUFFER_LENGTH
          + BUFFER_LENGTH * ((net.length - BUFFER_LENGTH) / BUFFER_LENGTH))
        (by rw [htk]; omega) (by rw [htk]; omega)]
      have hdiv : BUFFER_LENGTH * ((net.length - BUFFER_LENGTH) / BUFFER_LENGTH)
          = BUFFER_LENGTH * (net.length / BUFFER_LENGTH) - BUFFER_LENGTH := by
        simp only [BUFFER_LENGTH] at *
        omega
      rw [hdiv]
      have hxge : BUFFER_LENGTH ≤ BUFFER_LENGTH * (net.length / BUFFER_LENGTH) := by
        simp only [BUFFER_LENGTH] at *
        omega
      have hidx : read_bytes + BUFFER_LENGTH
            + (BUFFER_LENGTH * (net.length / BUFFER_LENGTH) - BUFFER_LENGTH)
          = read_bytes + BUFFER_LENGTH * (net.length / BUFFER_LENGTH) := by
        omega
      rw [hidx]
      rw [List.append_assoc (buffer.take read_bytes) (net.take BUFFER_LENGTH) _,
        ← List.take_add]
      have hsum : BUFFER_LENGTH
            + (BUFFER_LENGTH * (net.length / BUFFER_LENGTH) - BUFFER_LENGTH)
          = BUFFER_LENGTH * (net.length / BUFFER_LENGTH) := by
        omega
      rw [hsum]
    · rw [dif_neg hguard]
      have hx : BUFFER_LENGTH * (net.length / BUFFER_LENGTH) = 0 := by
        simp only [BUFFER_LENGTH] at *
        omega
      rw [hx]
      simp

/-- Failure case through the public overload: the user callback receives the
error together with the accumulation buffer, which holds the bytes of every
completed chunk followed by the zeros of the resize. -/
theorem tcp_read_failure_public (bytes : Nat) (net : List Nat)
    (h : net.length < bytes) :
    (tcp_connection.read bytes net).1
      = (some (), net.take (BUFFER_LENGTH * (net.length / BUFFER_LENGTH))
          ++ List.replicate (bytes - BUFFER_LENGTH * (net.length / BUFFER_LENGTH)) 0) := by
  have hgo := tcp_read_go_failure bytes (List.replicate bytes 0) 0 net (by simp) h
  rcases hval : tcp_connection.read_go bytes (List.replicate bytes 0) 0 net with ⟨res, tr⟩
  rw [hval] at hgo
  simp only at hgo
  rw [tcp_connection.read, hval, hgo]
  simp [List.drop_replicate]

/-- Claim C1. For every `n` and every connection that eventually delivers at
least `n` bytes, the public `read(n)` completes with no error and a buffer of
length exactly `n` that is byte-identical, in order, to the first `n` bytes
received from the socket — never a short read; internally the chunk trace is
exactly the `min remaining BUFFER_LENGTH` sequence of `chunkSizes`, each chunk
copied into the accumulation buffer at the current offset until the remaining
count reaches zero. -/
theorem claim_c1_tcp_read_exact (bytes : Nat) (net : List Nat)
    (h : bytes ≤ net.length) :
    tcp_connection.read bytes net = ((none, net.take bytes), chunkSizes bytes)
      ∧ (net.take bytes).length = bytes := by
  have hgo := tcp_read_go_success bytes (List.replicate bytes 0) 0 net (by simp) h
  constructor
  · rw [tcp_connection.read, hgo]
    simp
  · simp
    omega

/-- Claim C1, witness: reading 2 bytes from a socket that delivers 3, 5, 9 in
order yields exactly the bytes 3, 5 in one chunk. -/
theorem claim_c1_tcp_read_exact_witness :
    tcp_connection.read 2 [3, 5, 9] = ((none, [3, 5]), [2])
      ∧ ([3, 5] : List Nat).length = 2 := by
  have h := claim_c1_tcp_read_exact 2 [3, 5, 9] (by decide)
  have hcs : chunkSizes 2 = [2] := by
    rw [chunkSizes]
    norm_num [BUFFER_LENGTH]
  rw [hcs] at h
  simpa using h

/-- Claim C2, counterexample. Ask for 1025 bytes of a connection that delivers
1024 bytes of value 5 and then fails: the user callback receives the error
together with the accumulation buffer `replicate 1024 5 ++ [0]` — the 1024
received bytes are delivered to the caller, so the partially filled buffer is
not discarded on error as the claim states. -/
theorem claim_c2_counterexample :
    (tcp_connection.read 1025 (List.replicate 1024 5)).1
      = (some (), List.replicate 1024 5 ++ [0]) ∧
    List.replicate 1024 5 ++ [0] ≠ ([] : List Nat) := by
  constructor
  · have h := tcp_read_failure_public 1025 (List.replicate 1024 5)
      (by rw [List.length_replicate]; omega)
    rw [List.length_replicate] at h
    have hB : BUFFER_LENGTH * (1024 / BUFFER_LENGTH) = 1024 := by
      unfold BUFFER_LENGTH
      rfl
    rw [hB, List.take_replicate, Nat.min_self] at h
    have hone : (1025 : Nat) - 1024 = 1 := rfl
    rw [hone, List.replicate_one] at h
    exact h
  · intro hc
    have hlen := congrArg List.length hc
    rw [List.length_append, List.length_replicate] at hlen
    exact absurd hlen (by decide)

/-- Claim C2, amended. When a stream `read(n)` terminates with an I/O error,
the callback receives the error together with the accumulation buffer (it is
not discarded): the buffer holds the bytes of every completed chunk — the
first `BUFFER_LENGTH * (delivered / BUFFER_LENGTH)` bytes received — followed
by the zeros of the initial resize, so the caller can observe partial data on
error and must ignore the buffer contents when the error is set. -/
theorem claim_c2_error_buffer_delivered (bytes : Nat) (net : List Nat)
    (h : net.length < bytes) :
    (tcp_connection.read bytes net).1
      = (some (), net.take (BUFFER_LENGTH * (net.length / BUFFER_LENGTH))
          ++ List.replicate (bytes - BUFFER_LENGTH * (net.length / BUFFER_LENGTH)) 0) :=
  tcp_read_failure_public bytes net h

/-- Claim C2, witness for the amended theorem: a 1-byte read over a socket
that fails immediately reports the error with the zero-filled buffer. -/
theorem claim_c2_error_buffer_delivered_witness :
    (tcp_connection.read 1 []).1 = (some (), [0]) := by
  have h := claim_c2_error_buffer_delivered 1 [] (by decide)
  simpa using h

/-- Pushing a list of arrivals one by one appends them to the container and
advances the counter accordingly. -/
theorem foldl_do_push (arrivals : List Nat) :
    ∀ q : concurrent_queue,
      (arrivals.foldl concurrent_queue.do_push q)._container
          = q._container ++ arrivals ∧
      (arrivals.foldl concurrent_queue.do_push q)._size
          = q._size + arrivals.length := by
  induction arrivals with
  | nil => intro q; simp
  | cons a rest ih =>
      intro q
      have hr := ih (q.do_push a)
      simp only [List.foldl_cons]
      rw [hr.1, hr.2]
      simp [concurrent_queue.do_push]
      omega

/-- Claim C9. The two timed pop forms signal expiry consistently: if the queue
is empty and nothing arrives before the deadline, `pop(result, timeout)`
returns false leaving the out-parameter untouched and `pop(timeout)` throws
the timeout exception; if the container already holds `v`, both forms pop `v`
immediately; if the container is empty and `v` is the first arrival during the
wait, both forms pop `v`. In every successful case the popped element is the
head and the remainder keeps its order — no element is lost or duplicated. -/
theorem claim_c9_pop_timeout_forms (q : concurrent_queue) (arrivals : List Nat)
    (r0 : Nat) :
    (q._container = [] → arrivals = [] →
      concurrent_queue.pop_timed q arrivals r0 = (false, r0, q) ∧
      concurrent_queue.pop_throw q arrivals = Except.error ()) ∧
    (∀ v rest, q._container = v :: rest →
      concurrent_queue.pop_timed q arrivals r0
          = (true, v, { _container := rest, _size := q._size - 1 }) ∧
      concurrent_queue.pop_throw q arrivals
          = Except.ok (v, { _container := rest, _size := q._size - 1 })) ∧
    (∀ v rest, q._container = [] → arrivals = v :: rest →
      concurrent_queue.pop_timed q arrivals r0
          = (true, v, { _container := rest, _size := q._size + arrivals.length - 1 }) ∧
      concurrent_queue.pop_throw q arrivals
          = Except.ok (v, { _container := rest, _size := q._size + arrivals.length - 1 })) := by
  refine ⟨?_, ?_, ?_⟩
  · intro hq ha
    subst ha
    simp [concurrent_queue.pop_timed, concurrent_queue.pop_throw, hq]
  · intro v rest hq
    have hne : ¬ (q._container = []) := by
      rw [hq]
      simp
    constructor
    · simp [concurrent_queue.pop_timed, hne, concurrent_queue.do_pop, hq]
    · simp [concurrent_queue.pop_throw, concurrent_queue.pop_timed, hne,
        concurrent_queue.do_pop, hq]
  · intro v rest hq ha
    have hfold := foldl_do_push arrivals q
    have hcont : (arrivals.foldl concurrent_queue.do_push q)._container = v :: rest := by
      rw [hfold.1, hq, ha]
      simp
    have hsize : (arrivals.foldl concurrent_queue.do_push q)._size
        = q._size + arrivals.length := hfold.2
    have hne2 : ¬ ((arrivals.foldl concurrent_queue.do_push q)._container = []) := by
      rw [hcont]
      simp
    constructor
    · simp [concurrent_queue.pop_timed, hq, hne2, concurrent_queue.do_pop, hcont, hsize]
    · simp [concurrent_queue.pop_throw, concurrent_queue.pop_timed, hq, hne2,
        concurrent_queue.do_pop, hcont, hsize]

/-- Claim C9, witness: the timeout case on an empty quiet queue, the immediate
case on a queue holding 7, and the wait case where 4 arrives during the wait,
all behave as the theorem states. -/
theorem claim_c9_pop_timeout_forms_witness :
    concurrent_queue.pop_timed { _container := [], _size := 0 } [] 0
        = (false, 0, { _container := [], _size := 0 }) ∧
    concurrent_queue.pop_throw { _container := [], _size := 0 } [] = Except.error () ∧
    concurrent_queue.pop_timed { _container := [7], _size := 1 } [] 0
        = (true, 7, { _container := [], _size := 0 }) ∧
    concurrent_queue.pop_throw { _container := [], _size := 0 } [4]
        = Except.ok (4, { _container := [], _size := 0 }) := by
  have h1 := (claim_c9_pop_timeout_forms { _container := [], _size := 0 } [] 0).1
    rfl rfl
  have h2 := (claim_c9_pop_timeout_forms { _container := [7], _size := 1 } [] 0).2.1
    7 [] rfl
  have h3 := (claim_c9_pop_timeout_forms { _container := [], _size := 0 } [4] 0).2.2
    4 [] rfl rfl
  exact ⟨h1.1, h1.2, h2.1, h3.2⟩
